import Mathlib

/-!
Shallow embedding of the wallet-connection session/topic engine of this
repository (src/lib/walletkit.ts, src/lib/networks.ts and the BlastAPI
provider module), together with proofs about its registry, approval gate,
dispatcher, transaction submitter and provider connectivity loop.

JavaScript `Map` objects are modelled as association lists with JS `Map`
semantics: `set` updates an existing key in place (keeping its position in
insertion order) and appends a fresh key at the end; iteration order is
insertion order.  JS `Set` objects are insertion-ordered duplicate-free
lists.  Session objects are identified by a numeric id (`Nat`) standing
for JS reference identity; the mutable object heap is the `sessions`
field of `RegState`.
-/

/-- Lookup in a JS-Map-style association list: first entry whose key matches. -/
def lookupKey {α : Type} : List (String × α) → String → Option α
  | [], _ => none
  | (k', v) :: rest, k => if k' = k then some v else lookupKey rest k

/-- JS `Map.set`: update an existing key in place, else append at the end. -/
def setKey {α : Type} : List (String × α) → String → α → List (String × α)
  | [], k, v => [(k, v)]
  | (k', v') :: rest, k, v =>
      if k' = k then (k, v) :: rest else (k', v') :: setKey rest k v

/-- JS `Map.delete`: remove the entry with the given key (if any). -/
def delKey {α : Type} (m : List (String × α)) (k : String) : List (String × α) :=
  m.filter (fun p => ! (p.1 == k))

/-- JS `Set` construction from a list: keep the first occurrence of each element. -/
def dedupFirst : List String → List String
  | [] => []
  | t :: rest => t :: (dedupFirst rest).filter (· ≠ t)

/-- JS `Set.add`: append the element unless already present. -/
def addElem (l : List String) (t : String) : List String :=
  if t ∈ l then l else l ++ [t]

/-- The relay-prefixed variant of a topic key (`'wc:' + topic` in the source). -/
def wcKey (t : String) : String := "wc:" ++ t

/-- A topic string that does not itself carry the relay key form. -/
def isPlain (t : String) : Bool := ! (List.isPrefixOf ['w', 'c', ':'] t.data)

/-- In-memory session record (the value type of `activeSessions` in walletkit.ts). -/
structure Session where
  walletId : String
  address : String
  chainId : Nat
  topics : List String
  autoSign : Bool
  network : String
deriving DecidableEq, Repr

/-- Process-wide mutable state: the session object heap (keyed by object
identity) and the `activeSessions` topic map (topic key to session identity). -/
structure RegState where
  sessions : List (Nat × Session)
  topicMap : List (String × Nat)
deriving DecidableEq, Repr

/-- The empty registry. -/
def emptyReg : RegState := ⟨[], []⟩

/-- Find the session object with a given identity. -/
def lookupSession (σ : RegState) (sid : Nat) : Option Session :=
  σ.sessions.findSome? (fun e => if e.1 = sid then some e.2 else none)

/-- Mutate the topic set of the session object with identity `sid`
(`session.topics.add(topic)` in the source). -/
def addTopicToSession (σ : RegState) (sid : Nat) (t : String) : RegState :=
  { σ with sessions :=
      σ.sessions.map (fun e =>
        if e.1 = sid then (e.1, { e.2 with topics := addElem e.2.topics t }) else e) }

/-- Registry `put`: store a freshly created session object under both the raw
and the relay-prefixed form of every one of its topics (walletkit.ts,
session_proposal handler: `for (const topic of session.topics) {
activeSessions.set(wc-prefixed, session); activeSessions.set(topic, session) }`). -/
def putSession (σ : RegState) (sid : Nat) (s : Session) : RegState :=
  { sessions := σ.sessions ++ [(sid, s)],
    topicMap := s.topics.foldl (fun m t => setKey (setKey m (wcKey t) sid) t sid) σ.topicMap }

/-- Registry `resolve` as performed by the session_request handler: try the
relay-prefixed key, the raw key, then every registered key in insertion
order; on success add the inbound topic to the found session's topic set and
index the session under both forms of the inbound topic. -/
def resolveTopic (σ : RegState) (topic : String) : Option Nat × RegState :=
  match (wcKey topic :: topic :: σ.topicMap.map Prod.fst).findSome?
      (fun k => lookupKey σ.topicMap k) with
  | none => (none, σ)
  | some sid =>
      let σ' := addTopicToSession σ sid topic
      (some sid, { σ' with topicMap := setKey (setKey σ'.topicMap (wcKey topic) sid) topic sid })

/-- Registry `remove` as performed by the session_delete handler: delete every
topic of the session, in both naming forms, from the topic map. -/
def removeSession (σ : RegState) (sid : Nat) : RegState :=
  match lookupSession σ sid with
  | none => σ
  | some s =>
      { σ with topicMap := s.topics.foldl (fun m t => delKey (delKey m t) (wcKey t)) σ.topicMap }

/-- A registry operation: session creation with an initial topic set
(session_proposal), topic resolution for an inbound request
(session_request), or session teardown (session_delete). -/
inductive RegOp where
  | put (sid : Nat) (topics : List String)
  | resolve (topic : String)
  | remove (sid : Nat)
deriving DecidableEq, Repr

/-- Placeholder identity fields for a session created by a generic `put`;
only the topic set is relevant to registry behaviour. -/
def mkSession (topics : List String) : Session :=
  { walletId := "", address := "", chainId := 0,
    topics := dedupFirst topics, autoSign := true, network := "" }

/-- Execute one registry operation. -/
def execOp (σ : RegState) : RegOp → RegState
  | .put sid ts => putSession σ sid (mkSession ts)
  | .resolve t => (resolveTopic σ t).2
  | .remove sid => removeSession σ sid

/-- Execute a sequence of registry operations from the empty registry. -/
def execOps (ops : List RegOp) : RegState := ops.foldl execOp emptyReg

/-- Topic `t` currently resolves directly to session identity `sid`. -/
def topicRegisteredTo (σ : RegState) (t : String) (sid : Nat) : Prop :=
  lookupKey σ.topicMap t = some sid

instance (σ : RegState) (t : String) (sid : Nat) : Decidable (topicRegisteredTo σ t sid) := by
  unfold topicRegisteredTo; infer_instance

/-- JSON-like values carried in request parameters and results. -/
inductive JVal where
  | str : String → JVal
  | num : Nat → JVal
  | null : JVal
  | arr : List JVal → JVal
  | obj : List (String × JVal) → JVal
deriving BEq, Repr

/-- Field access on a JSON-like object (`undefined` for non-objects). -/
def JVal.getField : JVal → String → Option JVal
  | .obj fs, k => lookupKey fs k
  | _, _ => none

/-- The string content of a JSON-like value, when it is a string. -/
def JVal.asStr : JVal → Option String
  | .str s => some s
  | _ => none

/-- JS truthiness of a JSON-like value (`0`, `''` and `null` are falsy). -/
def JVal.truthy : JVal → Bool
  | .str s => s ≠ ""
  | .num n => n ≠ 0
  | .null => false
  | .arr _ => true
  | .obj _ => true

/-- A field that is present and JS-truthy (the `tx.field ? ... : ...` tests). -/
def truthyField (v : JVal) (k : String) : Option JVal :=
  match v.getField k with
  | some f => if f.truthy then some f else none
  | none => none

/-- Hexadecimal digit test. -/
def isHexChar (c : Char) : Bool :=
  c.isDigit || ('a' ≤ c && c ≤ 'f') || ('A' ≤ c && c ≤ 'F')

/-- Value of a hexadecimal digit. -/
def hexDigitVal (c : Char) : Nat :=
  if c.isDigit then c.toNat - '0'.toNat
  else if 'a' ≤ c && c ≤ 'f' then c.toNat - 'a'.toNat + 10
  else if 'A' ≤ c && c ≤ 'F' then c.toNat - 'A'.toNat + 10
  else 0

/-- ASCII lowercase of a string (JS `toLowerCase` restricted to ASCII data). -/
def lowerStr (s : String) : String := String.mk (s.data.map Char.toLower)

/-- The string starts with the two characters `0x`. -/
def startsWith0x (s : String) : Bool := List.isPrefixOf ['0', 'x'] s.data

/-- The string starts with `0x` or `0X`. -/
def startsWithHexMark (s : String) : Bool :=
  List.isPrefixOf ['0', 'x'] s.data || List.isPrefixOf ['0', 'X'] s.data

/-- ethers `isHexString(value)` (no length argument): a `0x`-prefixed string
of hexadecimal digits. -/
def isHexString (s : String) : Bool :=
  startsWith0x s && (s.data.drop 2).all isHexChar

/-- Byte list of an even-length hexadecimal digit string; `none` when the
length is odd (ethers `getBytes` rejects odd-length hex). -/
def hexPairsToBytes : List Char → Option (List Nat)
  | [] => some []
  | [_] => none
  | a :: b :: rest =>
      match hexPairsToBytes rest with
      | some bs => some ((hexDigitVal a * 16 + hexDigitVal b) :: bs)
      | none => none

/-- A UTF-8 continuation byte. -/
def isCont (b : Nat) : Bool := 0x80 ≤ b && b < 0xC0

/-- Strict UTF-8 decoding of a byte list, rejecting malformed sequences,
overlong encodings, surrogates and out-of-range code points (the checks
performed by ethers `toUtf8String` with its default error handling). -/
def utf8Decode : List Nat → Option (List Char)
  | [] => some []
  | b :: rest =>
      if b < 0x80 then
        match utf8Decode rest with
        | some cs => some (Char.ofNat b :: cs)
        | none => none
      else if b < 0xC0 then none
      else if b < 0xE0 then
        match rest with
        | c1 :: rest' =>
            if isCont c1 then
              let cp := (b - 0xC0) * 64 + (c1 - 0x80)
              if cp < 0x80 then none
              else match utf8Decode rest' with
                | some cs => some (Char.ofNat cp :: cs)
                | none => none
            else none
        | _ => none
      else if b < 0xF0 then
        match rest with
        | c1 :: c2 :: rest' =>
            if isCont c1 && isCont c2 then
              let cp := (b - 0xE0) * 4096 + (c1 - 0x80) * 64 + (c2 - 0x80)
              if cp < 0x800 then none
              else if 0xD800 ≤ cp && cp < 0xE000 then none
              else match utf8Decode rest' with
                | some cs => some (Char.ofNat cp :: cs)
                | none => none
            else none
        | _ => none
      else if b < 0xF8 then
        match rest with
        | c1 :: c2 :: c3 :: rest' =>
            if isCont c1 && isCont c2 && isCont c3 then
              let cp := (b - 0xF0) * 262144 + (c1 - 0x80) * 4096 + (c2 - 0x80) * 64 + (c3 - 0x80)
              if cp < 0x10000 then none
              else if cp > 0x10FFFF then none
              else match utf8Decode rest' with
                | some cs => some (Char.ofNat cp :: cs)
                | none => none
            else none
        | _ => none
      else none

/-- ethers `toUtf8String` on a `0x`-prefixed hex string: hex to bytes, then
strict UTF-8 decoding; `none` models a thrown decode error. -/
def toUtf8String (s : String) : Option String :=
  match hexPairsToBytes (s.data.drop 2) with
  | some bytes =>
      match utf8Decode bytes with
      | some cs => some (String.mk cs)
      | none => none
  | none => none

/-- JS `Number.prototype.toString(16)` for a natural number (lowercase hex digits). -/
def natToHex (n : Nat) : String := String.mk (Nat.toDigits 16 n)

/-- JS `parseInt(s, 16)`: skip an optional `0x` prefix, read leading hex
digits; `none` models `NaN`. -/
def parseHexNat (s : String) : Option Nat :=
  let body := if startsWithHexMark s then s.data.drop 2 else s.data
  let digits := body.takeWhile isHexChar
  if digits.isEmpty then none
  else some (digits.foldl (fun acc c => acc * 16 + hexDigitVal c) 0)

/-- ethers `getBigInt` on a JSON-like value (hex string, decimal string or
number); `none` models a thrown conversion error. -/
def jvalToNat : JVal → Option Nat
  | .num n => some n
  | .str s =>
      if startsWithHexMark s then
        if (s.data.drop 2).all isHexChar && ¬ (s.data.drop 2).isEmpty then parseHexNat s
        else none
      else s.toNat?
  | _ => none

/-- Configured network entry (src/lib/networks.ts; fields not used by the
core engine are omitted). -/
structure Network where
  id : String
  name : String
  chainId : Nat
  useEthereumWallet : Bool
deriving DecidableEq, Repr

/-- The configured network list (src/lib/networks.ts).  `useEthereumWallet`
is absent (hence JS-falsy) for every entry except skale, where it is
explicitly `false`. -/
def networks : List Network :=
  [ ⟨"ethereum", "Ethereum", 1, false⟩,
    ⟨"bnb", "BNB Chain", 56, false⟩,
    ⟨"polygon", "Polygon", 137, false⟩,
    ⟨"arbitrum", "Arbitrum", 42161, false⟩,
    ⟨"base", "Base", 8453, false⟩,
    ⟨"avalanche", "Avalanche", 43114, false⟩,
    ⟨"celo", "Celo", 42220, false⟩,
    ⟨"linea", "Linea", 59144, false⟩,
    ⟨"blast", "Blast", 81457, false⟩,
    ⟨"skale", "SKALE Calypso", 1564830818, false⟩ ]

/-- Substring containment on character lists. -/
def containsSubList (needle : List Char) : List Char → Bool
  | [] => needle.isEmpty
  | c :: rest => List.isPrefixOf needle (c :: rest) || containsSubList needle rest

/-- Substring containment, JS `String.prototype.includes`. -/
def containsSub (hay needle : String) : Bool := containsSubList needle.data hay.data

/-- Mint-transaction classification (walletkit.ts session_request handler):
`method === 'eth_sendTransaction' && params[0]?.data?.toLowerCase().includes('0x40c10f19')`. -/
def isMintTransaction (method : String) (params : List JVal) : Bool :=
  method == "eth_sendTransaction" &&
    (match params.head? >>= (fun p => p.getField "data") >>= JVal.asStr with
     | some d => containsSub (lowerStr d) "0x40c10f19"
     | none => false)

/-- The auto-approval formula of the session_request handler:
`session.autoSign && (!isMintTransaction || autoMintEnabled)`. -/
def shouldAutoApprove (autoSign mint autoMint : Bool) : Bool :=
  autoSign && (!mint || autoMint)

/-- The mutable `txParams` object assembled by `handleTransaction` (fields
that the retry loop reads or writes). -/
structure TxParams where
  gasLimit : Nat
  maxFeePerGas : Option Nat
  maxPriorityFeePerGas : Option Nat
  gasPrice : Option Nat
  nonce : Nat
  value : Option Nat
deriving DecidableEq, Repr

/-- JS truthiness of an optional BigInt (`0n` is falsy, `undefined` is falsy). -/
def natTruthy : Option Nat → Bool
  | some n => n ≠ 0
  | none => false

/-- External outcomes consumed by `handleTransaction`: the provider's gas
estimate, fee data (`maxFeePerGas`, `maxPriorityFeePerGas`), legacy gas
price and transaction count, and the outcome of each submission attempt
(`sendTransaction` + `wait`), indexed by attempt number. -/
structure TxEnv where
  estimateGas : Except String Nat
  feeData : Except String (Option Nat × Option Nat)
  gasPriceQuery : Except String Nat
  txCount : Except String Nat
  send : Nat → Except String String

/-- Extract a JS-truthy numeric field of the wire transaction, as
`ethers.getBigInt` would; an unconvertible present field is a thrown error. -/
def truthyNatField (tx : JVal) (k : String) (emsg : String) : Except String (Option Nat) :=
  match truthyField tx k with
  | none => .ok none
  | some f =>
      match jvalToNat f with
      | some n => .ok (some n)
      | none => .error emsg

/-- Gas limit step of `handleTransaction`: caller value if JS-truthy, else the
provider estimate plus a 20% buffer (BigInt arithmetic `* 12n / 10n`), falling
back to the fixed default `1000000` when estimation fails. -/
def setupGasLimit (env : TxEnv) (tx : JVal) : Except String Nat :=
  match truthyNatField tx "gas" "invalid gas" with
  | .error e => .error e
  | .ok (some g) => .ok g
  | .ok none =>
      match env.estimateGas with
      | .ok e => .ok (e * 12 / 10)
      | .error _ => .ok 1000000

/-- Fee step of `handleTransaction`: caller fee pair if both present and
JS-truthy; else network fee data with a 20% buffer; else legacy gas price
with a 20% buffer; on total fee-query failure the fixed default
`parseUnits('1', 'gwei')`.  Result `(maxFeePerGas?, maxPriorityFeePerGas?, gasPrice?)`. -/
def setupFees (env : TxEnv) (tx : JVal) : Except String (Option Nat × Option Nat × Option Nat) :=
  match truthyField tx "maxFeePerGas", truthyField tx "maxPriorityFeePerGas" with
  | some f, some p =>
      (match jvalToNat f, jvalToNat p with
       | some fv, some pv => .ok (some fv, some pv, none)
       | _, _ => .error "invalid fee value")
  | _, _ =>
      match env.feeData with
      | .ok fd =>
          if natTruthy fd.1 && natTruthy fd.2 then
            .ok (fd.1.map (· * 12 / 10), fd.2.map (· * 12 / 10), none)
          else
            match env.gasPriceQuery with
            | .ok gp => .ok (none, none, some (gp * 12 / 10))
            | .error _ => .ok (none, none, some 1000000000)
      | .error _ => .ok (none, none, some 1000000000)

/-- Nonce step of `handleTransaction`: caller value if the field is present
(`!== undefined`), else the provider's transaction count (whose failure
propagates). -/
def setupNonce (env : TxEnv) (tx : JVal) : Except String Nat :=
  match tx.getField "nonce" with
  | some f =>
      (match jvalToNat f with
       | some n => .ok n
       | none => .error "invalid nonce")
  | none => env.txCount

/-- Assemble the initial `txParams` in source order: value, gas limit, fees, nonce. -/
def setupTxParams (env : TxEnv) (tx : JVal) : Except String TxParams :=
  match truthyNatField tx "value" "invalid value" with
  | .error e => .error e
  | .ok v =>
      match setupGasLimit env tx with
      | .error e => .error e
      | .ok gl =>
          match setupFees env tx with
          | .error e => .error e
          | .ok fees =>
              match setupNonce env tx with
              | .error e => .error e
              | .ok nc =>
                  .ok { gasLimit := gl, maxFeePerGas := fees.1,
                        maxPriorityFeePerGas := fees.2.1, gasPrice := fees.2.2,
                        nonce := nc, value := v }

/-- Escalation between attempts: gas limit is always multiplied by `12n / 10n`
(BigInt floor division); then the EIP-1559 fee pair is bumped when
`maxFeePerGas` is JS-truthy, else the legacy gas price when JS-truthy. -/
def bumpParams (p : TxParams) : TxParams :=
  let q := { p with gasLimit := p.gasLimit * 12 / 10 }
  if natTruthy q.maxFeePerGas then
    { q with maxFeePerGas := q.maxFeePerGas.map (· * 12 / 10),
             maxPriorityFeePerGas := q.maxPriorityFeePerGas.map (· * 12 / 10) }
  else if natTruthy q.gasPrice then
    { q with gasPrice := q.gasPrice.map (· * 12 / 10) }
  else q

/-- The retry loop of `handleTransaction` (`MAX_RETRIES = 3`), unrolled: on a
failed attempt below the last, escalate and wait `1000 * 2 ^ attempt`
milliseconds.  Returns the `txParams` used by each attempt, the backoff
delays, and the result (`throw lastError` on exhaustion). -/
def sendWithRetry (env : TxEnv) (p : TxParams) :
    List TxParams × List Nat × Except String String :=
  match env.send 0 with
  | .ok h => ([p], [], .ok h)
  | .error _ =>
      let p1 := bumpParams p
      match env.send 1 with
      | .ok h => ([p, p1], [1000], .ok h)
      | .error _ =>
          let p2 := bumpParams p1
          match env.send 2 with
          | .ok h => ([p, p1, p2], [1000, 2000], .ok h)
          | .error e2 => ([p, p1, p2], [1000, 2000], .error e2)

/-- `handleTransaction` with its attempt/delay trace exposed. -/
def handleTransactionTrace (env : TxEnv) (tx : JVal) :
    List TxParams × List Nat × Except String String :=
  match setupTxParams env tx with
  | .error e => ([], [], .error e)
  | .ok p => sendWithRetry env p

/-- `handleTransaction` (walletkit.ts): returns the transaction hash or the
last underlying error. -/
def handleTransaction (env : TxEnv) (tx : JVal) : Except String String :=
  (handleTransactionTrace env tx).2.2

/-- Outcome of one `provider.getNetwork()` connectivity probe: whether it
settles successfully and after how many milliseconds. -/
structure ProvAttempt where
  ok : Bool
  time : Nat
deriving DecidableEq, Repr

/-- External behaviour of the provider connectivity probes, indexed by
attempt number (1-based as in the source loop). -/
structure ProvEnv where
  probe : Nat → ProvAttempt

/-- `Promise.race` of the probe against the 10-second timeout: the probe's
own settlement when it comes strictly before 10000 ms, else a timeout
failure at 10000 ms.  Returns (success?, settle time). -/
def raceProbe (a : ProvAttempt) : Bool × Nat :=
  if a.time < 10000 then (a.ok, a.time) else (false, 10000)

/-- The connectivity-test loop of `createBlastApiProvider`: up to 3 attempts;
after a failed attempt below the last, wait `1000 * 2 ^ (attempt - 1)`
milliseconds.  Returns (number of attempts made, backoff delays, success?). -/
def blastConnectLoop (env : ProvEnv) : Nat × List Nat × Bool :=
  let r1 := raceProbe (env.probe 1)
  if r1.1 then (1, [], true)
  else
    let r2 := raceProbe (env.probe 2)
    if r2.1 then (2, [1000], true)
    else
      let r3 := raceProbe (env.probe 3)
      if r3.1 then (3, [1000, 2000], true) else (3, [1000, 2000], false)

/-- The BlastAPI network slug map of `createBlastApiProvider`. -/
def blastNetworkMap : List (String × String) :=
  [ ("ethereum", "eth-mainnet"),
    ("bnb", "bsc-mainnet"),
    ("polygon", "polygon-mainnet"),
    ("arbitrum", "arbitrum-one"),
    ("avalanche", "avalanche-mainnet"),
    ("base", "base-mainnet"),
    ("linea", "linea-mainnet"),
    ("blast", "blast-mainnet"),
    ("celo", "celo-mainnet") ]

/-- An inbound relay request event (`session_request`). -/
structure WireRequest where
  topic : String
  id : Nat
  method : String
  params : List JVal
deriving BEq, Repr

/-- External behaviour consumed by the session_request handler: the global
auto-mint toggle, the outcome of `createProvider`, the chronological stream
of UI decision events `(id, approve, time in ms from request receipt)`, the
signer primitives, JSON parsing, and the transaction environment. -/
structure HandlerEnv where
  autoMintEnabled : Bool
  providerOutcome : Except String Unit
  decisions : List (Nat × Bool × Nat)
  sign : String → String
  parseJson : String → Option JVal
  signTyped : JVal → Except String String
  txEnv : TxEnv

/-- The approval wait: a promise racing a 180000 ms timeout against the first
`reown:signature` event whose id matches; the first settlement wins and a
later decision is a no-op.  Returns the outcome (`approve` flag or the
timeout error) and the simulated time at which the promise settled. -/
def waitApproval (ds : List (Nat × Bool × Nat)) (rid : Nat) : Except String Bool × Nat :=
  match ds.find? (fun d => d.1 == rid) with
  | some d =>
      if d.2.2 < 180000 then (.ok d.2.1, d.2.2)
      else (.error "Request timed out", 180000)
  | none => (.error "Request timed out", 180000)

/-- The message logged by the personal_sign case
(`isHexString(message) ? toUtf8String(message) : message`); `none` models the
decode throwing. -/
def personalSignLogged (m : String) : Option String :=
  if isHexString m then toUtf8String m else some m

/-- The method switch of the session_request handler, producing the JSON-RPC
result or the thrown error. -/
def dispatchMethod (env : HandlerEnv) (sess : Session) (req : WireRequest) :
    Except String JVal :=
  if req.method == "personal_sign" then
    match req.params.head? with
    | some (JVal.str m) =>
        if isHexString m then
          match toUtf8String m with
          | some txt => .ok (.str (env.sign txt))
          | none => .error "invalid UTF-8 string"
        else .ok (.str (env.sign m))
    | _ => .error "invalid message"
  else if req.method == "eth_signTypedData" || req.method == "eth_signTypedData_v4" then
    match req.params.get? 1 with
    | none => .error "invalid typed data"
    | some v =>
        match (match v with | .str s => env.parseJson s | _ => some v) with
        | none => .error "invalid JSON"
        | some d =>
            match env.signTyped d with
            | .ok sig => .ok (.str sig)
            | .error e => .error e
  else if req.method == "eth_sendTransaction" then
    match req.params.head? with
    | some tx =>
        (match handleTransaction env.txEnv tx with
         | .ok h => .ok (.str h)
         | .error e => .error e)
    | none => .error "invalid transaction"
  else if req.method == "wallet_switchEthereumChain" then
    match req.params.head? >>= (fun p => p.getField "chainId") >>= JVal.asStr with
    | some cidHex =>
        (match parseHexNat cidHex with
         | some rcid =>
             (match networks.find? (fun n => n.chainId == rcid) with
              | some _ => .ok .null
              | none => .error ("Chain ID " ++ toString rcid ++ " is not supported"))
         | none => .error "Chain ID NaN is not supported")
    | none => .error "invalid chain switch params"
  else if req.method == "eth_accounts" then
    .ok (.arr [.str (lowerStr sess.address)])
  else if req.method == "eth_chainId" then
    match networks.find? (fun n => n.id == sess.network) with
    | none => .error ("Network configuration not found for " ++ sess.network)
    | some n =>
        .ok (.str ("0x" ++ natToHex (if n.useEthereumWallet then 1 else n.chainId)))
  else .error ("Unsupported method: " ++ req.method)

/-- A `reown:request` UI event. -/
structure UiRequestEvt where
  id : Nat
  method : String
  params : List JVal
  pending : Bool
deriving BEq, Repr

/-- A `reown:response` UI outcome event. -/
structure UiOutcomeEvt where
  id : Nat
  success : Bool
  errMsg : Option String
deriving BEq, Repr

instance {ε α : Type} [BEq ε] [BEq α] : BEq (Except ε α) :=
  ⟨fun a b =>
    match a, b with
    | .ok x, .ok y => x == y
    | .error e, .error f => e == f
    | _, _ => false⟩

/-- One `respondSessionRequest` call. -/
structure RelayResponse where
  topic : String
  id : Nat
  payload : Except (Nat × String) JVal
deriving BEq, Repr

/-- Observable output of one run of the session_request handler. -/
structure HandlerOut where
  state : RegState
  uiRequests : List UiRequestEvt
  uiOutcomes : List UiOutcomeEvt
  responses : List RelayResponse
  resolvedAt : Option Nat
deriving Repr

/-- The catch block of the session_request handler: one failure UI outcome
event and one JSON-RPC error response (code 4001). -/
def errorOut (σ : RegState) (req : WireRequest) (uiReqs : List UiRequestEvt)
    (rt : Option Nat) (e : String) : HandlerOut :=
  { state := σ, uiRequests := uiReqs,
    uiOutcomes := [⟨req.id, false, some e⟩],
    responses := [⟨req.topic, req.id, .error (4001, e)⟩],
    resolvedAt := rt }

/-- The session_request handler of walletkit.ts: resolve the topic, look up
the network, create a provider, classify and decide auto-approval, emit the
UI request event, wait for approval when needed, dispatch, and send exactly
one relay response on either the success or the error path. -/
def sessionRequestHandler (σ : RegState) (env : HandlerEnv) (req : WireRequest) :
    HandlerOut :=
  let r := resolveTopic σ req.topic
  let σ₁ := r.2
  match r.1 with
  | none => errorOut σ₁ req [] none ("Session not found for topic: " ++ req.topic)
  | some sid =>
      match lookupSession σ₁ sid with
      | none => errorOut σ₁ req [] none "missing session record"
      | some sess =>
          match networks.find? (fun n => n.id == sess.network) with
          | none => errorOut σ₁ req [] none
              ("Network configuration not found for " ++ sess.network)
          | some _ =>
              match env.providerOutcome with
              | .error e => errorOut σ₁ req [] none e
              | .ok _ =>
                  let mint := isMintTransaction req.method req.params
                  let auto := shouldAutoApprove sess.autoSign mint env.autoMintEnabled
                  let uiReq : UiRequestEvt := ⟨req.id, req.method, req.params, !auto⟩
                  let wr :=
                    if auto then (Except.ok true, none)
                    else
                      (let w := waitApproval env.decisions req.id
                       (w.1, some w.2))
                  match wr.1 with
                  | .error e => errorOut σ₁ req [uiReq] wr.2 e
                  | .ok approved =>
                      if !approved then
                        errorOut σ₁ req [uiReq] wr.2 "User rejected request"
                      else
                        match dispatchMethod env sess req with
                        | .error e => errorOut σ₁ req [uiReq] wr.2 e
                        | .ok v =>
                            { state := σ₁, uiRequests := [uiReq],
                              uiOutcomes := [⟨req.id, true, none⟩],
                              responses := [⟨req.topic, req.id, .ok v⟩],
                              resolvedAt := wr.2 }

/-- The topic set of a session created by the session_proposal handler:
`new Set([pairingTopic, proposalId])`. -/
def sessionTopics (pairingTopic proposalId : String) : List String :=
  dedupFirst [pairingTopic, proposalId]

/-- Session creation by the session_proposal handler: the session record is
built with `autoSign: true` and stored under every topic in both key forms. -/
def proposalCreateSession (σ : RegState) (sid : Nat)
    (pairingTopic proposalId walletId address : String) (chainId : Nat)
    (network : String) : RegState :=
  putSession σ sid
    { walletId := walletId, address := lowerStr address, chainId := chainId,
      topics := sessionTopics pairingTopic proposalId, autoSign := true,
      network := network }

/-- The auto-sign update performed by `pair`: for every entry of
`activeSessions` whose session belongs to the given wallet, set the
session object's `autoSign` flag to the argument. -/
def pairUpdateAutoSign (σ : RegState) (wid : String) (flag : Bool) : RegState :=
  { σ with sessions :=
      σ.sessions.map (fun e =>
        if σ.topicMap.any (fun p => p.2 == e.1) && (e.2.walletId == wid) then
          (e.1, { e.2 with autoSign := flag })
        else e) }

/-- A concrete registry: one session (id 0) created by a proposal, used to
instantiate hypothesis-bearing theorems. -/
def sampleState : RegState :=
  proposalCreateSession emptyReg 0 "topicA" "42" "w1" "0xAbC" 1 "ethereum"

/-- A concrete handler environment with auto-mint on, a working provider,
no decision events, and a transaction backend whose submissions always fail. -/
def sampleEnv : HandlerEnv :=
  { autoMintEnabled := true,
    providerOutcome := .ok (),
    decisions := [],
    sign := fun s => "sig:" ++ s,
    parseJson := fun _ => none,
    signTyped := fun _ => .error "unsupported",
    txEnv := { estimateGas := .ok 100, feeData := .ok (some 50, some 5),
               gasPriceQuery := .ok 7, txCount := .ok 0,
               send := fun _ => .error "always fails" } }

/-- `sampleState` with auto-sign switched off for wallet `w1` (as `pair`
with `autoSign = false` would do for an existing session). -/
def manualState : RegState := pairUpdateAutoSign sampleState "w1" false

/-- `sampleEnv` with a single decision event that arrives only after the
180-second timeout has fired. -/
def lateDecisionEnv : HandlerEnv := { sampleEnv with decisions := [(11, true, 200000)] }

/-- The session object stored in `sampleState` under identity 0. -/
def sampleSession : Session :=
  { walletId := "w1", address := "0xabc", chainId := 1,
    topics := ["topicA", "42"], autoSign := true, network := "ethereum" }

/-- A session on the skale network (real chain id 1564830818). -/
def skaleSession : Session :=
  { walletId := "w2", address := "0xabc", chainId := 1564830818,
    topics := ["tS"], autoSign := true, network := "skale" }

/-- A wire transaction with caller-supplied gas limit `0x1` and both fee
fields `0x5`. -/
def c7Tx : JVal :=
  .obj [("gas", .str "0x1"), ("maxFeePerGas", .str "0x5"),
        ("maxPriorityFeePerGas", .str "0x5")]

/-- A provider environment whose every connectivity probe fails immediately. -/
def allFailProbeEnv : ProvEnv := ⟨fun _ => ⟨false, 0⟩⟩

/-- Hygiene of one registry operation with respect to a topic `t` registered
to session `S`: every topic string used is plain (no `wc:` form), a `put`
whose topic set contains `t` targets `S` itself, and `S` is not removed. -/
def opSafe (t : String) (S : Nat) : RegOp → Prop
  | .put sid ts => (∀ u ∈ ts, isPlain u = true) ∧ (t ∈ ts → sid = S)
  | .resolve u => isPlain u = true
  | .remove sid => sid ≠ S

instance (t : String) (S : Nat) (op : RegOp) : Decidable (opSafe t S op) := by
  cases op <;> (unfold opSafe; infer_instance)

/-- The registration invariant for topic `t` and session `S`: `t` is plain
and registered to `S` under both key forms, no doubly prefixed key for `t`
exists, only `S`'s session object lists `t`, and every stored topic is plain. -/
def RegInv (t : String) (S : Nat) (σ : RegState) : Prop :=
  isPlain t = true ∧
  lookupKey σ.topicMap t = some S ∧
  lookupKey σ.topicMap (wcKey t) = some S ∧
  lookupKey σ.topicMap (wcKey (wcKey t)) = none ∧
  (∀ e ∈ σ.sessions, t ∈ e.2.topics → e.1 = S) ∧
  (∀ e ∈ σ.sessions, ∀ u ∈ e.2.topics, isPlain u = true)

instance (t : String) (S : Nat) (σ : RegState) : Decidable (RegInv t S σ) := by
  unfold RegInv; infer_instance

/-- The alias-convergence property exactly as claimed: over every operation
sequence from the empty registry, once a topic resolves to a session it
keeps resolving to it (under both key forms) as long as that session is not
removed. -/
def AliasConvergenceAsStated : Prop :=
  ∀ (ops : List RegOp) (k : Nat) (t : String) (S : Nat),
    k ≤ ops.length →
    topicRegisteredTo (execOps (ops.take k)) t S →
    RegOp.remove S ∉ ops.drop k →
    ((resolveTopic (execOps ops) t).1 = some S ∧
     (resolveTopic (execOps ops) (wcKey t)).1 = some S)


theorem lookupKey_setKey_self {α : Type} (m : List (String × α)) (k : String) (v : α) :
    lookupKey (setKey m k v) k = some v := by
  induction m with
  | nil => simp [setKey, lookupKey]
  | cons e rest ih =>
      obtain ⟨k', v'⟩ := e
      by_cases h : k' = k <;> simp [setKey, lookupKey, h, ih]

theorem lookupKey_setKey_ne {α : Type} (m : List (String × α)) (k k' : String) (v : α)
    (h : k' ≠ k) : lookupKey (setKey m k v) k' = lookupKey m k' := by
  have hne : ¬ (k = k') := fun he => h he.symm
  induction m with
  | nil => simp [setKey, lookupKey, hne]
  | cons e rest ih =>
      obtain ⟨k'', v''⟩ := e
      by_cases h2 : k'' = k
      · subst h2
        simp [setKey, lookupKey, hne]
      · simp [setKey, lookupKey, h2, ih]

theorem lookupKey_delKey_ne {α : Type} (m : List (String × α)) (k k' : String)
    (h : k' ≠ k) : lookupKey (delKey m k) k' = lookupKey m k' := by
  have hne : ¬ (k = k') := fun he => h he.symm
  induction m with
  | nil => rfl
  | cons e rest ih =>
      obtain ⟨k'', v''⟩ := e
      simp only [delKey, List.filter_cons] at ih ⊢
      by_cases h2 : k'' = k
      · subst h2
        simp [lookupKey, hne, ih]
      · have hb : (k'' == k) = false := by simp [h2]
        by_cases h3 : k'' = k' <;> simp [lookupKey, hb, h2, h3, ih, hne, h]

theorem lookup_putFold (us : List String) (sid : Nat) (m : List (String × Nat)) (k : String) :
    lookupKey (us.foldl (fun acc t => setKey (setKey acc (wcKey t) sid) t sid) m) k =
      if us.any (fun u => u == k || wcKey u == k) then some sid else lookupKey m k := by
  induction us generalizing m with
  | nil => simp
  | cons u rest ih =>
      simp only [List.foldl_cons, List.any_cons, ih]
      by_cases hrest : rest.any (fun u => u == k || wcKey u == k)
      · simp [hrest]
      · simp only [hrest, Bool.or_false, if_false]
        by_cases h1 : u = k
        · subst h1
          simp [Bool.or_comm, lookupKey_setKey_self]
        · by_cases h2 : wcKey u = k
          · subst h2
            simp [lookupKey_setKey_ne _ _ _ _ (fun he => h1 he.symm),
              lookupKey_setKey_self, h1]
          · have e1 : k ≠ u := fun he => h1 he.symm
            have e2 : k ≠ wcKey u := fun he => h2 he.symm
            simp [lookupKey_setKey_ne _ _ _ _ e1, lookupKey_setKey_ne _ _ _ _ e2,
              beq_eq_false_iff_ne, h1, h2, e1, e2]

theorem lookup_delFold (us : List String) (m : List (String × Nat)) (k : String)
    (h : ∀ u ∈ us, u ≠ k ∧ wcKey u ≠ k) :
    lookupKey (us.foldl (fun acc t => delKey (delKey acc t) (wcKey t)) m) k =
      lookupKey m k := by
  induction us generalizing m with
  | nil => rfl
  | cons u rest ih =>
      simp only [List.foldl_cons]
      rw [ih _ (fun u hu => h u (List.mem_cons_of_mem _ hu))]
      have h1 := (h u (List.mem_cons_self u rest)).1
      have h2 := (h u (List.mem_cons_self u rest)).2
      rw [lookupKey_delKey_ne _ _ _ (fun he => h2 he.symm),
          lookupKey_delKey_ne _ _ _ (fun he => h1 he.symm)]

theorem any_value_of_lookup (m : List (String × Nat)) (k : String) (v : Nat)
    (h : lookupKey m k = some v) : m.any (fun p => p.2 == v) = true := by
  induction m with
  | nil => simp [lookupKey] at h
  | cons e rest ih =>
      obtain ⟨k', v'⟩ := e
      by_cases h2 : k' = k
      · simp [lookupKey, h2] at h
        simp [h]
      · simp [lookupKey, h2] at h
        simp [ih h]

theorem wcKey_data (t : String) : (wcKey t).data = 'w' :: 'c' :: ':' :: t.data := by
  simp [wcKey, String.data_append]

theorem wcKey_inj {u t : String} (h : wcKey u = wcKey t) : u = t := by
  have hd := congrArg String.data h
  rw [wcKey_data, wcKey_data] at hd
  exact String.ext (by simpa using hd)

theorem wcKey_ne_self (t : String) : wcKey t ≠ t := by
  intro h
  have hd : (wcKey t).data.length = t.data.length := by rw [h]
  rw [wcKey_data] at hd
  simp at hd
  omega

theorem isPlain_wcKey (u : String) : isPlain (wcKey u) = false := by
  simp [isPlain, wcKey_data, List.isPrefixOf]

theorem wcKey_ne_plain {t : String} (h : isPlain t = true) (u : String) : wcKey u ≠ t := by
  intro he
  rw [← he] at h
  rw [isPlain_wcKey] at h
  exact Bool.false_ne_true h

theorem findSome?_eq_none_all {α β : Type} (f : α → Option β) (l : List α) :
    l.findSome? f = none ↔ ∀ x ∈ l, f x = none := by
  induction l with
  | nil => simp
  | cons a l ih =>
      rw [List.findSome?_cons]
      cases h : f a <;> simp [h, ih]

theorem mem_addElem_self (l : List String) (t : String) : t ∈ addElem l t := by
  unfold addElem
  by_cases h : t ∈ l <;> simp [h]

theorem lookupSession_addTopic (σ : RegState) (sid : Nat) (t : String) :
    lookupSession (addTopicToSession σ sid t) sid =
      (lookupSession σ sid).map (fun s => { s with topics := addElem s.topics t }) := by
  unfold lookupSession addTopicToSession
  induction σ.sessions with
  | nil => rfl
  | cons e rest ih =>
      by_cases h : e.1 = sid <;>
        simp only [List.map_cons, List.findSome?_cons, h, if_true, if_false, ite_true,
          ite_false, reduceIte] <;>
        simp [h, ih]

theorem waitApproval_late (ds : List (Nat × Bool × Nat)) (rid : Nat)
    (h : ∀ d ∈ ds, d.1 = rid → 180000 ≤ d.2.2) :
    waitApproval ds rid = (.error "Request timed out", 180000) := by
  unfold waitApproval
  cases hf : ds.find? (fun d => d.1 == rid) with
  | none => rfl
  | some d =>
      have hd := List.find?_some hf
      simp only [beq_iff_eq] at hd
      have hle := h d (List.mem_of_find?_eq_some hf) hd
      simp [Nat.not_lt.2 hle]

/-- C1: for every inbound session request, the handler sends exactly one
relay response (`respondSessionRequest`), correlated to the request's id and
topic, and emits exactly one terminal UI outcome event — over every
environment, including decision events arriving after the 180-second
timeout, and on every success or error path. -/
theorem respond_exactly_once (σ : RegState) (env : HandlerEnv) (req : WireRequest) :
    (sessionRequestHandler σ env req).responses.length = 1 ∧
    (∀ r ∈ (sessionRequestHandler σ env req).responses,
        r.id = req.id ∧ r.topic = req.topic) ∧
    (sessionRequestHandler σ env req).uiOutcomes.length = 1 := by
  unfold sessionRequestHandler
  cases h1 : (resolveTopic σ req.topic).1 with
  | none => simp [h1, errorOut]
  | some sid =>
      simp only [h1]
      cases h2 : lookupSession (resolveTopic σ req.topic).2 sid with
      | none => simp [h2, errorOut]
      | some sess =>
          simp only [h2]
          cases h3 : networks.find? (fun n => n.id == sess.network) with
          | none => simp [h3, errorOut]
          | some nw =>
              simp only [h3]
              cases h4 : env.providerOutcome with
              | error e => simp [h4, errorOut]
              | ok u =>
                  simp only [h4]
                  by_cases hauto : shouldAutoApprove sess.autoSign
                      (isMintTransaction req.method req.params) env.autoMintEnabled = true
                  · simp only [hauto, if_true]
                    cases h5 : dispatchMethod env sess req with
                    | error e => simp [h5, errorOut]
                    | ok v => simp [h5]
                  · simp only [hauto, if_false, Bool.false_eq_true]
                    cases hw : (waitApproval env.decisions req.id).1 with
                    | error e => simp [hw, errorOut]
                    | ok approved =>
                        simp only [hw]
                        cases approved with
                        | false => simp [errorOut]
                        | true =>
                            cases h5 : dispatchMethod env sess req with
                            | error e => simp [h5, errorOut]
                            | ok v => simp [h5]

/-- C4: a non-auto-approved request whose decision events all arrive at or
after the 180-second timeout resolves at exactly 180000 ms (hence within
[180000, 180100)), sends the timeout rejection response (code 4001), and
its whole observable outcome equals that of a run with no decision events
at all — a late decision event has no effect. -/
theorem approval_timeout_fixed (σ : RegState) (env : HandlerEnv) (req : WireRequest)
    (sid : Nat) (sess : Session) (nw : Network)
    (hres : (resolveTopic σ req.topic).1 = some sid)
    (hlook : lookupSession (resolveTopic σ req.topic).2 sid = some sess)
    (hnet : networks.find? (fun n => n.id == sess.network) = some nw)
    (hprov : env.providerOutcome = .ok ())
    (hauto : shouldAutoApprove sess.autoSign (isMintTransaction req.method req.params)
        env.autoMintEnabled = false)
    (hlate : ∀ d ∈ env.decisions, d.1 = req.id → 180000 ≤ d.2.2) :
    (sessionRequestHandler σ env req).resolvedAt = some 180000 ∧
    (∀ t, (sessionRequestHandler σ env req).resolvedAt = some t →
        180000 ≤ t ∧ t < 180100) ∧
    (sessionRequestHandler σ env req).responses =
      [⟨req.topic, req.id, .error (4001, "Request timed out")⟩] ∧
    sessionRequestHandler σ env req =
      sessionRequestHandler σ { env with decisions := [] } req := by
  have hw : waitApproval env.decisions req.id = (.error "Request timed out", 180000) :=
    waitApproval_late env.decisions req.id hlate
  have hw0 : waitApproval ([] : List (Nat × Bool × Nat)) req.id =
      (.error "Request timed out", 180000) := rfl
  unfold sessionRequestHandler
  simp only [hres, hlook, hnet, hprov, hauto, hw, hw0, Bool.false_eq_true, if_false]
  refine ⟨rfl, ?_, rfl, trivial⟩
  intro t ht
  simp [errorOut] at ht
  omega

theorem approval_timeout_fixed_witness :
    (sessionRequestHandler manualState lateDecisionEnv
        ⟨"topicA", 11, "personal_sign", [.str "hello"]⟩).resolvedAt = some 180000 ∧
    (sessionRequestHandler manualState lateDecisionEnv
        ⟨"topicA", 11, "personal_sign", [.str "hello"]⟩).responses =
      [⟨"topicA", 11, .error (4001, "Request timed out")⟩] := by
  have h := approval_timeout_fixed manualState lateDecisionEnv
    ⟨"topicA", 11, "personal_sign", [.str "hello"]⟩ 0
    { walletId := "w1", address := "0xabc", chainId := 1,
      topics := ["topicA", "42"], autoSign := false, network := "ethereum" }
    ⟨"ethereum", "Ethereum", 1, false⟩
    rfl rfl rfl rfl rfl (by decide)
  exact ⟨h.1, h.2.2.1⟩

theorem isMint_iff (method : String) (params : List JVal) :
    isMintTransaction method params = true ↔
      (method = "eth_sendTransaction" ∧
       ∃ d, (params.head? >>= (fun p => p.getField "data") >>= JVal.asStr) = some d ∧
            containsSub (lowerStr d) "0x40c10f19" = true) := by
  unfold isMintTransaction
  rw [Bool.and_eq_true, beq_iff_eq]
  cases ho : (params.head? >>= (fun p => p.getField "data") >>= JVal.asStr) with
  | none => simp
  | some d => simp

/-- C3: whenever the session_request handler reaches its decision point, the
UI request event it emits is pending exactly when
`session.autoSign AND (not mint-flagged OR auto-mint toggle)` is false, the
approval wait is skipped exactly when that formula is true, and a request is
mint-flagged exactly when it is an `eth_sendTransaction` whose lowercased
call data contains the mint selector `0x40c10f19`. -/
theorem auto_approval_formula (σ : RegState) (env : HandlerEnv) (req : WireRequest)
    (sid : Nat) (sess : Session) (nw : Network)
    (hres : (resolveTopic σ req.topic).1 = some sid)
    (hlook : lookupSession (resolveTopic σ req.topic).2 sid = some sess)
    (hnet : networks.find? (fun n => n.id == sess.network) = some nw)
    (hprov : env.providerOutcome = .ok ()) :
    (sessionRequestHandler σ env req).uiRequests =
      [⟨req.id, req.method, req.params,
        !(sess.autoSign && (!(isMintTransaction req.method req.params) ||
            env.autoMintEnabled))⟩] ∧
    (isMintTransaction req.method req.params = true ↔
      (req.method = "eth_sendTransaction" ∧
       ∃ d, (req.params.head? >>= (fun p => p.getField "data") >>= JVal.asStr) = some d ∧
            containsSub (lowerStr d) "0x40c10f19" = true)) ∧
    ((sessionRequestHandler σ env req).resolvedAt = none ↔
      (sess.autoSign && (!(isMintTransaction req.method req.params) ||
        env.autoMintEnabled)) = true) := by
  refine ⟨?_, isMint_iff req.method req.params, ?_⟩ <;>
  · unfold sessionRequestHandler
    simp only [hres, hlook, hnet, hprov, shouldAutoApprove]
    by_cases hauto : (sess.autoSign && (!(isMintTransaction req.method req.params) ||
        env.autoMintEnabled)) = true
    · simp only [hauto, if_true]
      cases h5 : dispatchMethod env sess req with
      | error e => simp [h5, errorOut, hauto]
      | ok v => simp [h5, hauto]
    · simp only [hauto, if_false, Bool.false_eq_true]
      cases hw : (waitApproval env.decisions req.id).1 with
      | error e => simp [hw, errorOut, hauto]
      | ok approved =>
          simp only [hw]
          cases approved with
          | false => simp [errorOut, hauto]
          | true =>
              cases h5 : dispatchMethod env sess req with
              | error e => simp [h5, errorOut, hauto]
              | ok v => simp [h5, hauto]

/-- C9: in the session_request handler, topic resolution fails (with the
session-not-found error path) exactly when the registry map is empty; and
when the map is non-empty but the inbound topic matches neither key form,
the fallback scan over all registered keys resolves the topic to the
session of the first entry in insertion order, and registers the topic —
under both key forms, and in the session's own topic set — as a new alias
of that session. -/
theorem resolve_fallback_first (σ : RegState) (t : String) :
    ((resolveTopic σ t).1 = none ↔ σ.topicMap = []) ∧
    (∀ k0 s0 rest, σ.topicMap = (k0, s0) :: rest →
      lookupKey σ.topicMap (wcKey t) = none → lookupKey σ.topicMap t = none →
      (resolveTopic σ t).1 = some s0 ∧
      lookupKey (resolveTopic σ t).2.topicMap t = some s0 ∧
      lookupKey (resolveTopic σ t).2.topicMap (wcKey t) = some s0 ∧
      (∀ s, lookupSession (resolveTopic σ t).2 s0 = some s → t ∈ s.topics)) := by
  constructor
  · constructor
    · intro hres
      cases hm : σ.topicMap with
      | nil => rfl
      | cons e rest =>
          exfalso
          unfold resolveTopic at hres
          cases hf : (wcKey t :: t :: σ.topicMap.map Prod.fst).findSome?
              (fun k => lookupKey σ.topicMap k) with
          | some sid => rw [hf] at hres; simp at hres
          | none =>
              have hall := (findSome?_eq_none_all _ _).mp hf
              have hk : e.1 ∈ wcKey t :: t :: σ.topicMap.map Prod.fst := by
                simp [hm]
              have hnone := hall e.1 hk
              rw [hm] at hnone
              obtain ⟨k0, v0⟩ := e
              simp [lookupKey] at hnone
    · intro hm
      unfold resolveTopic
      have hf : (wcKey t :: t :: σ.topicMap.map Prod.fst).findSome?
          (fun k => lookupKey σ.topicMap k) = none := by
        rw [hm]; rfl
      rw [hf]
  · intro k0 s0 rest hm h1 h2
    have hk0 : lookupKey σ.topicMap k0 = some s0 := by
      rw [hm]; simp [lookupKey]
    have hf : (wcKey t :: t :: σ.topicMap.map Prod.fst).findSome?
        (fun k => lookupKey σ.topicMap k) = some s0 := by
      rw [List.findSome?_cons]
      simp only [h1]
      rw [List.findSome?_cons]
      simp only [h2]
      conv_lhs => rw [hm]
      rw [List.map_cons, List.findSome?_cons]
      have hk0c : lookupKey ((k0, s0) :: rest) k0 = some s0 := by simp [lookupKey]
      simp only [hk0c]
    unfold resolveTopic
    rw [hf]
    have htm : (addTopicToSession σ s0 t).topicMap = σ.topicMap := rfl
    refine ⟨rfl, ?_, ?_, ?_⟩
    · simp only [htm]
      exact lookupKey_setKey_self _ _ _
    · simp only [htm]
      rw [lookupKey_setKey_ne _ _ _ _ (wcKey_ne_self t)]
      exact lookupKey_setKey_self _ _ _
    · intro s hs
      have hls : lookupSession (addTopicToSession σ s0 t) s0 = some s := hs
      rw [lookupSession_addTopic] at hls
      cases ho : lookupSession σ s0 with
      | none => rw [ho] at hls; simp at hls
      | some s1 =>
          rw [ho] at hls
          simp at hls
          rw [← hls]
          exact mem_addElem_self _ _

theorem resolve_fallback_first_witness :
    (resolveTopic sampleState "zzz").1 = some 0 ∧
    lookupKey (resolveTopic sampleState "zzz").2.topicMap "zzz" = some 0 ∧
    lookupKey (resolveTopic sampleState "zzz").2.topicMap (wcKey "zzz") = some 0 := by
  have h := (resolve_fallback_first sampleState "zzz").2 "wc:topicA" 0
    [("topicA", 0), ("wc:42", 0), ("42", 0)] rfl rfl rfl
  exact ⟨h.1, h.2.1, h.2.2.1⟩

theorem auto_approval_formula_witness :
    (sessionRequestHandler sampleState sampleEnv
        ⟨"topicA", 7, "personal_sign", [.str "hello"]⟩).uiRequests =
      [⟨7, "personal_sign", [.str "hello"], false⟩] ∧
    (sessionRequestHandler sampleState sampleEnv
        ⟨"topicA", 7, "personal_sign", [.str "hello"]⟩).resolvedAt = none := by
  have h := auto_approval_formula sampleState sampleEnv
    ⟨"topicA", 7, "personal_sign", [.str "hello"]⟩ 0
    { walletId := "w1", address := "0xabc", chainId := 1,
      topics := ["topicA", "42"], autoSign := true, network := "ethereum" }
    ⟨"ethereum", "Ethereum", 1, false⟩ rfl rfl rfl rfl
  exact ⟨h.1.trans rfl, h.2.2.mpr rfl⟩

/-- C10: a session created by the session_proposal handler always has its
auto-sign flag set to `true`; the `autoSign` argument of `pair` is applied
only to sessions already present in the registry at the time `pair` runs (it
does set their flag); hence after `pair(..., autoSign = false)` followed by
the proposal, the new session has `autoSign = true`, its pairing topic
resolves to it, and (the auto-approval formula being
`autoSign && (!mint || autoMint)`) a non-mint request against it is
auto-approved whatever the global auto-mint toggle. -/
theorem proposal_autoSign_overrides_pair (wid pt pid addr net : String) (cid : Nat)
    (flag : Bool) :
    (lookupSession (proposalCreateSession (pairUpdateAutoSign emptyReg wid flag) 0
        pt pid wid addr cid net) 0).map Session.autoSign = some true ∧
    (lookupSession (pairUpdateAutoSign (proposalCreateSession emptyReg 0 pt pid wid addr cid net)
        wid flag) 0).map Session.autoSign = some flag ∧
    (resolveTopic (proposalCreateSession (pairUpdateAutoSign emptyReg wid flag) 0
        pt pid wid addr cid net) pt).1 = some 0 ∧
    (∀ m autoMint, shouldAutoApprove true (isMintTransaction "personal_sign" [JVal.str m])
        autoMint = true) := by
  have hempty : pairUpdateAutoSign emptyReg wid flag = emptyReg := rfl
  rw [hempty]
  set σp := proposalCreateSession emptyReg 0 pt pid wid addr cid net with hσp
  have hsess : σp.sessions =
      [(0, { walletId := wid, address := lowerStr addr, chainId := cid,
             topics := sessionTopics pt pid, autoSign := true, network := net })] := rfl
  have htopics : ∃ tl, sessionTopics pt pid = pt :: tl := by
    unfold sessionTopics dedupFirst
    exact ⟨_, rfl⟩
  obtain ⟨tl, htl⟩ := htopics
  have hwcpt : lookupKey σp.topicMap (wcKey pt) = some 0 := by
    have : σp.topicMap = (sessionTopics pt pid).foldl
        (fun acc t => setKey (setKey acc (wcKey t) 0) t 0) emptyReg.topicMap := rfl
    rw [this, lookup_putFold, htl]
    simp
  refine ⟨rfl, ?_, ?_, fun m autoMint => rfl⟩
  · have hany : σp.topicMap.any (fun p => p.2 == 0) = true :=
      any_value_of_lookup _ _ _ hwcpt
    unfold pairUpdateAutoSign
    rw [hsess]
    simp only [List.map_cons, List.map_nil]
    rw [hany]
    simp [lookupSession]
  · unfold resolveTopic
    rw [List.findSome?_cons]
    simp only [hwcpt]

/-- C5 (amended): for the personal message sign method, a hex-encoded
parameter that decodes as UTF-8 is decoded before signing (and logged
decoded); but the decode is not best-effort — when the hex parameter is not
valid UTF-8 the thrown decode error fails the request, and the raw string
is not signed; a non-hex parameter is signed as-is. -/
theorem personal_sign_hex_decode (env : HandlerEnv) (sess : Session) (topic : String)
    (rid : Nat) (m : String) :
    (∀ txt, isHexString m = true → toUtf8String m = some txt →
      dispatchMethod env sess ⟨topic, rid, "personal_sign", [.str m]⟩ =
        .ok (.str (env.sign txt)) ∧ personalSignLogged m = some txt) ∧
    (isHexString m = true → toUtf8String m = none →
      dispatchMethod env sess ⟨topic, rid, "personal_sign", [.str m]⟩ =
        .error "invalid UTF-8 string") ∧
    (isHexString m = false →
      dispatchMethod env sess ⟨topic, rid, "personal_sign", [.str m]⟩ =
        .ok (.str (env.sign m))) := by
  unfold dispatchMethod personalSignLogged
  refine ⟨?_, ?_, ?_⟩
  · intro txt hhex hdec
    simp [hhex, hdec]
  · intro hhex hdec
    simp [hhex, hdec]
  · intro hhex
    simp [hhex]

theorem personal_sign_hex_decode_witness :
    dispatchMethod sampleEnv sampleSession
        ⟨"topicA", 13, "personal_sign", [.str "0x48656c6c6f"]⟩ =
      .ok (.str "sig:Hello") ∧
    personalSignLogged "0x48656c6c6f" = some "Hello" := by
  have h := (personal_sign_hex_decode sampleEnv sampleSession "topicA" 13
    "0x48656c6c6f").1 "Hello" rfl rfl
  exact ⟨h.1.trans rfl, h.2⟩

theorem personal_sign_not_besteffort_counterexample :
    isHexString "0xff" = true ∧
    toUtf8String "0xff" = none ∧
    dispatchMethod sampleEnv sampleSession ⟨"topicA", 12, "personal_sign", [.str "0xff"]⟩ =
      .error "invalid UTF-8 string" ∧
    dispatchMethod sampleEnv sampleSession ⟨"topicA", 12, "personal_sign", [.str "0xff"]⟩ ≠
      .ok (.str (sampleEnv.sign "0xff")) := by
  have he : dispatchMethod sampleEnv sampleSession
      ⟨"topicA", 12, "personal_sign", [.str "0xff"]⟩ =
      .error "invalid UTF-8 string" := rfl
  refine ⟨rfl, rfl, he, ?_⟩
  rw [he]
  intro h
  exact Except.noConfusion h

/-- C6 (amended): the chain-id query returns the session network's chain id
in lowercase hex, substituting chain id 1 for a network flagged
`useEthereumWallet`; however no configured network carries that flag — skale
sets it explicitly to `false` — so the skale query returns its real id
`0x5d456c62`, not `0x1`. -/
theorem eth_chainId_shim (env : HandlerEnv) (sess : Session) (topic : String)
    (rid : Nat) (nw : Network)
    (hnet : networks.find? (fun n => n.id == sess.network) = some nw) :
    dispatchMethod env sess ⟨topic, rid, "eth_chainId", []⟩ =
      .ok (.str ("0x" ++ natToHex (if nw.useEthereumWallet then 1 else nw.chainId))) ∧
    (∀ n ∈ networks, n.useEthereumWallet = false) ∧
    (sess.network = "skale" →
      dispatchMethod env sess ⟨topic, rid, "eth_chainId", []⟩ =
        .ok (.str "0x5d456c62")) := by
  have h1 : dispatchMethod env sess ⟨topic, rid, "eth_chainId", []⟩ =
      .ok (.str ("0x" ++ natToHex (if nw.useEthereumWallet then 1 else nw.chainId))) := by
    unfold dispatchMethod
    simp [hnet]
  refine ⟨h1, by decide, ?_⟩
  intro hsk
  rw [hsk] at hnet
  have hv : networks.find? (fun n => n.id == ("skale" : String)) =
      some (⟨"skale", "SKALE Calypso", 1564830818, false⟩ : Network) := rfl
  rw [hv] at hnet
  have hnw := Option.some.inj hnet
  rw [h1, ← hnw]
  rfl

theorem eth_chainId_shim_witness :
    dispatchMethod sampleEnv skaleSession ⟨"tS", 8, "eth_chainId", []⟩ =
      .ok (.str "0x5d456c62") := by
  have h := eth_chainId_shim sampleEnv skaleSession "tS" 8
    ⟨"skale", "SKALE Calypso", 1564830818, false⟩ rfl
  exact h.2.2 rfl

theorem skale_chainid_counterexample :
    networks.find? (fun n => n.id == ("skale" : String)) =
      some ⟨"skale", "SKALE Calypso", 1564830818, false⟩ ∧
    dispatchMethod sampleEnv skaleSession ⟨"tS", 8, "eth_chainId", []⟩ =
      .ok (.str "0x5d456c62") ∧
    ("0x5d456c62" : String) ≠ "0x1" := by
  refine ⟨rfl, rfl, by decide⟩

/-- C7 (amended): a transaction submission whose every attempt fails is
attempted exactly 3 times; each retry's gas limit — and its fee fields, when
JS-truthy — are the previous attempt's values multiplied by 12 and
floor-divided by 10 (BigInt arithmetic; exactly 1.2x only when the previous
value is divisible by 5); exactly two backoff delays of 1000 ms then 2000 ms
occur between attempts; and the final outcome is the last underlying error. -/
theorem tx_retry_bound (env : TxEnv) (tx : JVal) (p : TxParams)
    (hsetup : setupTxParams env tx = .ok p)
    (e0 e1 e2 : String)
    (h0 : env.send 0 = .error e0) (h1 : env.send 1 = .error e1)
    (h2 : env.send 2 = .error e2) :
    (handleTransactionTrace env tx).1 = [p, bumpParams p, bumpParams (bumpParams p)] ∧
    (handleTransactionTrace env tx).1.length = 3 ∧
    (handleTransactionTrace env tx).2.1 = [1000, 2000] ∧
    (handleTransactionTrace env tx).2.2 = .error e2 ∧
    (∀ q : TxParams, (bumpParams q).gasLimit = q.gasLimit * 12 / 10 ∧
      (natTruthy q.maxFeePerGas = true →
        (bumpParams q).maxFeePerGas = q.maxFeePerGas.map (· * 12 / 10) ∧
        (bumpParams q).maxPriorityFeePerGas = q.maxPriorityFeePerGas.map (· * 12 / 10)) ∧
      (natTruthy q.maxFeePerGas = false → natTruthy q.gasPrice = true →
        (bumpParams q).gasPrice = q.gasPrice.map (· * 12 / 10))) := by
  unfold handleTransactionTrace sendWithRetry
  rw [hsetup, h0, h1, h2]
  refine ⟨rfl, rfl, rfl, rfl, ?_⟩
  intro q
  unfold bumpParams
  by_cases hf : natTruthy q.maxFeePerGas <;> by_cases hg : natTruthy q.gasPrice <;>
    simp [hf, hg]

theorem tx_retry_bound_witness :
    (handleTransactionTrace sampleEnv.txEnv c7Tx).2.1 = [1000, 2000] ∧
    (handleTransactionTrace sampleEnv.txEnv c7Tx).2.2 = .error "always fails" := by
  have h := tx_retry_bound sampleEnv.txEnv c7Tx
    ⟨1, some 5, some 5, none, 0, none⟩ rfl
    "always fails" "always fails" "always fails" rfl rfl rfl
  exact ⟨h.2.2.1, h.2.2.2.1⟩

theorem tx_retry_not_exact_20pct_counterexample :
    (handleTransactionTrace sampleEnv.txEnv c7Tx).1.map TxParams.gasLimit = [1, 1, 1] ∧
    ¬ (10 * (((handleTransactionTrace sampleEnv.txEnv c7Tx).1.map TxParams.gasLimit).getD 1 0) =
       12 * (((handleTransactionTrace sampleEnv.txEnv c7Tx).1.map TxParams.gasLimit).getD 0 0)) := by
  exact ⟨rfl, by decide⟩

/-- C8 (amended): every configured non-skale network has a BlastAPI endpoint
slug, and the connectivity test of `createBlastApiProvider` makes at most 3
attempts, each bounded by the 10-second race (it settles within 10000 ms of
its start, and a probe reaching 10000 ms is forced to a timeout failure),
with exponential backoff delays of 1000 ms then 2000 ms between consecutive
attempts; an all-failing run makes exactly 3 attempts with exactly those two
delays — no 4000 ms delay ever occurs. -/
theorem provider_connect_retries (env : ProvEnv) :
    (∀ n ∈ networks, n.id ≠ "skale" → (lookupKey blastNetworkMap n.id).isSome = true) ∧
    (blastConnectLoop env).1 ≤ 3 ∧
    (∀ a : ProvAttempt, (raceProbe a).2 ≤ 10000 ∧
      (10000 ≤ a.time → raceProbe a = (false, 10000))) ∧
    ((raceProbe (env.probe 1)).1 = false → (raceProbe (env.probe 2)).1 = false →
      (raceProbe (env.probe 3)).1 = false →
      (blastConnectLoop env).1 = 3 ∧ (blastConnectLoop env).2.1 = [1000, 2000] ∧
      (blastConnectLoop env).2.2 = false) ∧
    (∀ d ∈ (blastConnectLoop env).2.1, d = 1000 ∨ d = 2000) := by
  refine ⟨by decide, ?_, ?_, ?_, ?_⟩
  · unfold blastConnectLoop
    by_cases p1 : (raceProbe (env.probe 1)).1 <;>
      by_cases p2 : (raceProbe (env.probe 2)).1 <;>
      by_cases p3 : (raceProbe (env.probe 3)).1 <;>
      simp [p1, p2, p3]
  · intro a
    unfold raceProbe
    by_cases ht : a.time < 10000 <;> simp [ht] <;> omega
  · intro p1 p2 p3
    unfold blastConnectLoop
    simp [p1, p2, p3]
  · intro d hd
    unfold blastConnectLoop at hd
    by_cases p1 : (raceProbe (env.probe 1)).1 <;>
      by_cases p2 : (raceProbe (env.probe 2)).1 <;>
      by_cases p3 : (raceProbe (env.probe 3)).1 <;>
      simp [p1, p2, p3] at hd <;>
      omega

theorem provider_connect_retries_witness :
    (blastConnectLoop allFailProbeEnv).1 = 3 ∧
    (blastConnectLoop allFailProbeEnv).2.1 = [1000, 2000] := by
  have h := (provider_connect_retries allFailProbeEnv).2.2.2.1 rfl rfl rfl
  exact ⟨h.1, h.2.1⟩

theorem provider_backoff_no_4s_counterexample :
    (blastConnectLoop allFailProbeEnv).2.1 = [1000, 2000] ∧
    (blastConnectLoop allFailProbeEnv).2.1.length = 2 ∧
    ¬ (4000 ∈ (blastConnectLoop allFailProbeEnv).2.1) := by
  refine ⟨rfl, rfl, by decide⟩

theorem alias_convergence_counterexample : ¬ AliasConvergenceAsStated := by
  intro h
  have hc := h [.put 1 ["a"], .put 2 ["a"]] 1 "a" 1 (by decide) (by decide) (by decide)
  exact absurd hc.1 (by decide)

theorem mem_dedupFirst (l : List String) (x : String) : x ∈ dedupFirst l ↔ x ∈ l := by
  induction l with
  | nil => simp [dedupFirst]
  | cons a l ih =>
      unfold dedupFirst
      by_cases hx : x = a
      · simp [hx]
      · simp [hx, List.mem_filter, ih]

theorem mem_addElem (l : List String) (y x : String) : x ∈ addElem l y ↔ x ∈ l ∨ x = y := by
  unfold addElem
  by_cases hy : y ∈ l
  · simp [hy]
    intro he
    rw [he]; exact hy
  · simp [hy]

theorem plain_ne_wcKey {u : String} (h : isPlain u = true) (v : String) : u ≠ wcKey v := by
  intro he
  rw [he, isPlain_wcKey] at h
  exact Bool.false_ne_true h

theorem any_key_cases {ts : List String} {k : String}
    (h : ts.any (fun u => u == k || wcKey u == k) = true) :
    k ∈ ts ∨ ∃ u ∈ ts, wcKey u = k := by
  obtain ⟨u, hu, hp⟩ := List.any_eq_true.mp h
  rcases Bool.or_eq_true_iff.mp hp with h1 | h2
  · left
    rw [← beq_iff_eq.mp h1]
    exact hu
  · right
    exact ⟨u, hu, beq_iff_eq.mp h2⟩

theorem lookupSession_entry {σ : RegState} {sid : Nat} {s : Session}
    (h : lookupSession σ sid = some s) : ∃ e ∈ σ.sessions, e.1 = sid ∧ e.2 = s := by
  obtain ⟨e, he, hf⟩ := List.exists_of_findSome?_eq_some h
  by_cases hes : e.1 = sid
  · rw [if_pos hes] at hf
    exact ⟨e, he, hes, Option.some.inj hf⟩
  · rw [if_neg hes] at hf
    exact absurd hf (Option.noConfusion)

theorem RegInv_preserved (t : String) (S : Nat) (σ : RegState) (op : RegOp)
    (hinv : RegInv t S σ) (hop : opSafe t S op) : RegInv t S (execOp σ op) := by
  obtain ⟨ht, hk1, hk2, hk3, hown, hplain⟩ := hinv
  cases op with
  | put sid ts =>
      obtain ⟨hts, hT⟩ := hop
      have htsd : ∀ u ∈ dedupFirst ts, isPlain u = true := fun u hu =>
        hts u ((mem_dedupFirst ts u).mp hu)
      have hTd : t ∈ dedupFirst ts → sid = S := fun h =>
        hT ((mem_dedupFirst ts t).mp h)
      simp only [execOp, putSession, mkSession]
      refine ⟨ht, ?_, ?_, ?_, ?_, ?_⟩
      · rw [lookup_putFold]
        by_cases hc : (dedupFirst ts).any (fun u => u == t || wcKey u == t) = true
        · rcases any_key_cases hc with hmem | ⟨u, _, hwu⟩
          · rw [if_pos hc, hTd hmem]
          · exact absurd hwu (wcKey_ne_plain ht u)
        · rw [if_neg hc]
          exact hk1
      · rw [lookup_putFold]
        by_cases hc : (dedupFirst ts).any (fun u => u == wcKey t || wcKey u == wcKey t) = true
        · rcases any_key_cases hc with hmem | ⟨u, hu, hwu⟩
          · exact absurd rfl (plain_ne_wcKey (htsd _ hmem) t)
          · rw [if_pos hc, hTd (wcKey_inj hwu ▸ hu)]
        · rw [if_neg hc]
          exact hk2
      · rw [lookup_putFold]
        have hc : (dedupFirst ts).any
            (fun u => u == wcKey (wcKey t) || wcKey u == wcKey (wcKey t)) ≠ true := by
          intro hc
          rcases any_key_cases hc with hmem | ⟨u, hu, hwu⟩
          · exact absurd rfl (plain_ne_wcKey (htsd _ hmem) (wcKey t))
          · exact absurd (wcKey_inj hwu) (plain_ne_wcKey (htsd _ hu) t)
        rw [if_neg hc]
        exact hk3
      · intro e he hte
        rcases List.mem_append.mp he with hold | hnew
        · exact hown e hold hte
        · rcases List.mem_singleton.mp hnew with rfl
          exact hTd hte
      · intro e he u hu
        rcases List.mem_append.mp he with hold | hnew
        · exact hplain e hold u hu
        · rcases List.mem_singleton.mp hnew with rfl
          exact htsd u hu
  | resolve u =>
      have hu : isPlain u = true := hop
      simp only [execOp, resolveTopic]
      cases hr : (wcKey u :: u :: σ.topicMap.map Prod.fst).findSome?
          (fun k => lookupKey σ.topicMap k) with
      | none => exact ⟨ht, hk1, hk2, hk3, hown, hplain⟩
      | some sid' =>
          simp only
          have hmapTM : (addTopicToSession σ sid' u).topicMap = σ.topicMap := rfl
          by_cases hut : u = t
          · subst hut
            have hsid : sid' = S := by
              rw [List.findSome?_cons] at hr
              simp only [hk2] at hr
              exact (Option.some.inj hr).symm
            subst hsid
            refine ⟨ht, ?_, ?_, ?_, ?_, ?_⟩
            · rw [hmapTM]
              exact lookupKey_setKey_self _ _ _
            · rw [hmapTM]
              rw [lookupKey_setKey_ne _ _ _ _ (wcKey_ne_self u)]
              exact lookupKey_setKey_self _ _ _
            · rw [hmapTM]
              have h1 : wcKey (wcKey u) ≠ u := fun he => plain_ne_wcKey ht (wcKey u) he.symm
              have h2 : wcKey (wcKey u) ≠ wcKey u := fun he => wcKey_ne_self u (wcKey_inj he)
              rw [lookupKey_setKey_ne _ _ _ _ h1, lookupKey_setKey_ne _ _ _ _ h2]
              exact hk3
            · intro e he hte
              simp only [addTopicToSession, List.mem_map] at he
              obtain ⟨e0, he0, heq⟩ := he
              by_cases h0 : e0.1 = sid'
              · rw [if_pos h0] at heq
                rw [← heq]
                exact h0
              · rw [if_neg h0] at heq
                rw [← heq] at hte ⊢
                exact hown e0 he0 hte
            · intro e he v hv
              simp only [addTopicToSession, List.mem_map] at he
              obtain ⟨e0, he0, heq⟩ := he
              by_cases h0 : e0.1 = sid'
              · rw [if_pos h0] at heq
                rw [← heq] at hv
                simp only at hv
                rcases (mem_addElem _ _ _).mp hv with hv0 | rfl
                · exact hplain e0 he0 v hv0
                · exact ht
              · rw [if_neg h0] at heq
                rw [← heq] at hv
                exact hplain e0 he0 v hv
          · have hne1 : t ≠ u := fun he => hut he.symm
            have hne2 : t ≠ wcKey u := plain_ne_wcKey ht u
            have hne3 : wcKey t ≠ u := fun he => plain_ne_wcKey hu t he.symm
            have hne4 : wcKey t ≠ wcKey u := fun he => hut (wcKey_inj he).symm
            have hne5 : wcKey (wcKey t) ≠ u := fun he => plain_ne_wcKey hu (wcKey t) he.symm
            have hne6 : wcKey (wcKey t) ≠ wcKey u := fun he =>
              plain_ne_wcKey hu t (wcKey_inj he).symm
            refine ⟨ht, ?_, ?_, ?_, ?_, ?_⟩
            · rw [hmapTM, lookupKey_setKey_ne _ _ _ _ hne1, lookupKey_setKey_ne _ _ _ _ hne2]
              exact hk1
            · rw [hmapTM, lookupKey_setKey_ne _ _ _ _ hne3, lookupKey_setKey_ne _ _ _ _ hne4]
              exact hk2
            · rw [hmapTM, lookupKey_setKey_ne _ _ _ _ hne5, lookupKey_setKey_ne _ _ _ _ hne6]
              exact hk3
            · intro e he hte
              simp only [addTopicToSession, List.mem_map] at he
              obtain ⟨e0, he0, heq⟩ := he
              by_cases h0 : e0.1 = sid'
              · rw [if_pos h0] at heq
                rw [← heq] at hte ⊢
                simp only at hte
                rcases (mem_addElem _ _ _).mp hte with hv0 | hvu
                · exact hown e0 he0 hv0
                · exact absurd hvu.symm hut
              · rw [if_neg h0] at heq
                rw [← heq] at hte ⊢
                exact hown e0 he0 hte
            · intro e he v hv
              simp only [addTopicToSession, List.mem_map] at he
              obtain ⟨e0, he0, heq⟩ := he
              by_cases h0 : e0.1 = sid'
              · rw [if_pos h0] at heq
                rw [← heq] at hv
                simp only at hv
                rcases (mem_addElem _ _ _).mp hv with hv0 | rfl
                · exact hplain e0 he0 v hv0
                · exact hu
              · rw [if_neg h0] at heq
                rw [← heq] at hv
                exact hplain e0 he0 v hv
  | remove sid =>
      have hs : sid ≠ S := hop
      simp only [execOp, removeSession]
      cases hls : lookupSession σ sid with
      | none => exact ⟨ht, hk1, hk2, hk3, hown, hplain⟩
      | some s =>
          obtain ⟨e, he, hesid, hes⟩ := lookupSession_entry hls
          have htopics : ∀ u ∈ s.topics, isPlain u = true := by
            intro u hu
            exact hplain e he u (hes ▸ hu)
          have hnott : ∀ u ∈ s.topics, u ≠ t := by
            intro u hu he2
            exact hs (hesid ▸ hown e he (hes ▸ he2 ▸ hu))
          refine ⟨ht, ?_, ?_, ?_, hown, hplain⟩
          · rw [lookup_delFold]
            · exact hk1
            · intro u hu
              exact ⟨hnott u hu, wcKey_ne_plain ht u⟩
          · rw [lookup_delFold]
            · exact hk2
            · intro u hu
              refine ⟨plain_ne_wcKey (htopics u hu) t, fun he2 => ?_⟩
              exact hnott u hu (wcKey_inj he2)
          · rw [lookup_delFold]
            · exact hk3
            · intro u hu
              refine ⟨plain_ne_wcKey (htopics u hu) (wcKey t), fun he2 => ?_⟩
              exact plain_ne_wcKey (htopics u hu) t (wcKey_inj he2)

theorem RegInv_execList (t : String) (S : Nat) (σ : RegState) (ops : List RegOp)
    (hinv : RegInv t S σ) (hops : ∀ op ∈ ops, opSafe t S op) :
    RegInv t S (ops.foldl execOp σ) := by
  induction ops generalizing σ with
  | nil => exact hinv
  | cons op rest ih =>
      rw [List.foldl_cons]
      exact ih (execOp σ op)
        (RegInv_preserved t S σ op hinv (hops op (List.mem_cons_self op rest)))
        (fun o ho => hops o (List.mem_cons_of_mem op ho))

theorem resolve_of_RegInv (t : String) (S : Nat) (σ : RegState) (hinv : RegInv t S σ) :
    (resolveTopic σ t).1 = some S ∧ (resolveTopic σ (wcKey t)).1 = some S := by
  obtain ⟨ht, hk1, hk2, hk3, hown, hplain⟩ := hinv
  constructor
  · unfold resolveTopic
    rw [List.findSome?_cons]
    simp only [hk2]
  · unfold resolveTopic
    rw [List.findSome?_cons]
    simp only [hk3]
    rw [List.findSome?_cons]
    simp only [hk2]

/-- C2 (amended): alias convergence holds for a topic that is never
re-registered to a different session.  If `t` is registered to session `S`
(both key forms map to `S`, no doubly-prefixed key for `t` exists, only `S`
lists `t`, all topics plain), then after any further sequence of registry
operations in which every topic string is plain, any `put` naming `t`
targets `S` itself, and `S` is not removed, the invariant still holds and
`resolve(t)` and `resolve("wc:" + t)` both return `S` (the same session
object, by identity). -/
theorem alias_convergence_amended (t : String) (S : Nat) (σ : RegState)
    (ops : List RegOp) (hinv : RegInv t S σ) (hops : ∀ op ∈ ops, opSafe t S op) :
    RegInv t S (ops.foldl execOp σ) ∧
    (resolveTopic (ops.foldl execOp σ) t).1 = some S ∧
    (resolveTopic (ops.foldl execOp σ) (wcKey t)).1 = some S := by
  have hfin := RegInv_execList t S σ ops hinv hops
  exact ⟨hfin, (resolve_of_RegInv t S _ hfin).1, (resolve_of_RegInv t S _ hfin).2⟩

theorem alias_convergence_amended_witness :
    (resolveTopic ([RegOp.resolve "xyz", RegOp.put 2 ["b"],
        RegOp.remove 2].foldl execOp (execOps [RegOp.put 1 ["a"]])) "a").1 = some 1 ∧
    (resolveTopic ([RegOp.resolve "xyz", RegOp.put 2 ["b"],
        RegOp.remove 2].foldl execOp (execOps [RegOp.put 1 ["a"]])) (wcKey "a")).1 =
      some 1 := by
  have h := alias_convergence_amended "a" 1 (execOps [RegOp.put 1 ["a"]])
    [RegOp.resolve "xyz", RegOp.put 2 ["b"], RegOp.remove 2]
    (by decide) (by decide)
  exact ⟨h.2.1, h.2.2⟩
